/-
  Verification of the TMZ BRAND VIP payment-verification system.

  Shallow embedding of the receipt-verification pipeline of this repository:
  the amount extractor, field matcher and receipt verifier of both
  `ocr_bot_fixed.py` (the Telegram bot) and `spelling.py` (the Flask backend),
  together with the payment-ledger and join-request state machines.

  Modelling conventions:
  - OCR text is a `List Char`; Python `str.upper`/`str.lower`/`str.strip` are
    modelled on ASCII via `Char.toUpper`/`Char.toLower` and a whitespace trim.
  - Monetary values are naturals counting hundredths of a Naira (every numeric
    token the regexes can produce has at most two decimals, so "float" values
    of the source are represented exactly; e.g. `2,000.00` becomes `200000`).
  - The regular-expression scans of the source are modelled directly,
    including Python's leftmost-match, greedy backtracking and `\b`
    (word-boundary) semantics, specialised to the concrete patterns used.
  - Timestamps are integers; database tables are association lists.
-/
import Mathlib

/-! ## Character and string utilities -/

/-- ASCII whitespace, as trimmed by Python `str.strip`. -/
def isSpc (c : Char) : Bool := c == ' ' || c == '\t' || c == '\r' || c == '\n'

/-- Python `str.strip`: drop whitespace from both ends. -/
def stripL (s : List Char) : List Char :=
  ((s.dropWhile isSpc).reverse.dropWhile isSpc).reverse

/-- Python `str.upper` (ASCII). -/
def upperL (s : List Char) : List Char := s.map Char.toUpper

/-- Python `str.lower` (ASCII). -/
def lowerL (s : List Char) : List Char := s.map Char.toLower

/-- Does `hay` start with `pat`? -/
def startsWithL : List Char → List Char → Bool
  | [], _ => true
  | _ :: _, [] => false
  | p :: ps, h :: hs => p == h && startsWithL ps hs

/-- Python `pat in hay`: substring containment. -/
def containsL (pat : List Char) : List Char → Bool
  | [] => pat.isEmpty
  | h :: hs => startsWithL pat (h :: hs) || containsL pat hs

/-- Python `text.split('\n')`. -/
def splitLines : List Char → List (List Char)
  | [] => [[]]
  | c :: cs =>
    if c = '\n' then [] :: splitLines cs
    else
      match splitLines cs with
      | [] => [[c]]
      | l :: ls => (c :: l) :: ls

/-- Digits or the thousands separator: the character class `[0-9,]`. -/
def isDC (c : Char) : Bool := c.isDigit || c == ','

/-- First whitespace-separated token, as Python `s.split()[0]` (the source
crashes on an all-whitespace name; the model returns `[]` there, which the
callers' non-emptiness guards then discard). -/
def firstTok (s : List Char) : List Char :=
  (s.dropWhile isSpc).takeWhile (fun c => !isSpc c)

/-! ## Amount parsing

`float(tok.replace(',', ''))` on a regex-matched token, returned in
hundredths.  The tokens produced by the patterns below have at most one dot
and at most two digits after it; a token with no digits at all raises
`ValueError` in the source (caught and skipped), modelled as `none`. -/

def digitsVal (ds : List Char) : Nat :=
  ds.foldl (fun a c => a * 10 + (c.toNat - 48)) 0

def fracCents : List Char → Nat
  | [] => 0
  | [a] => (a.toNat - 48) * 10
  | [a, b] => (a.toNat - 48) * 10 + (b.toNat - 48)
  | _ => 0

def parseCents (cs : List Char) : Option Nat :=
  let t := cs.filter (fun c => !(c == ','))
  let ip := t.takeWhile (fun c => !(c == '.'))
  if !ip.all Char.isDigit then none
  else
    match t.drop ip.length with
    | [] => if ip.isEmpty then none else some (digitsVal ip * 100)
    | '.' :: fr =>
      if ip.isEmpty && fr.isEmpty then none
      else if fr.all Char.isDigit && decide (fr.length ≤ 2) then
        some (digitsVal ip * 100 + fracCents fr)
      else none
    | _ => none

/-! ## The pattern `[0-9,]+\.?[0-9]{2}`

Used by the PalmPay special-case search and by the first decimal scan of
`extract_amount_from_text` in `ocr_bot_fixed.py`.  Matching at a fixed start
position follows Python's backtracking order: the `+` part tries its longest
extent first, and for each extent the optional dot is tried before its
absence. -/

def matchAFrom (s : List Char) : Nat → Option (List Char × List Char)
  | 0 => none
  | k + 1 =>
    (match s.drop (k + 1) with
     | '.' :: d1 :: d2 :: r =>
       if d1.isDigit && d2.isDigit then some (s.take (k + 1) ++ ['.', d1, d2], r)
       else none
     | _ => none)
    <|>
    (match s.drop (k + 1) with
     | d1 :: d2 :: r =>
       if d1.isDigit && d2.isDigit then some (s.take (k + 1) ++ [d1, d2], r)
       else none
     | _ => none)
    <|> matchAFrom s k

def matchA (s : List Char) : Option (List Char × List Char) :=
  matchAFrom s (s.takeWhile isDC).length

/-- Python `re.search` of the pattern: leftmost match, returning the group. -/
def searchA : List Char → Option (List Char)
  | [] => none
  | c :: cs =>
    match matchA (c :: cs) with
    | some (m, _) => some m
    | none => searchA cs

/-- Python `re.findall` of the pattern, fuelled (every match is non-empty, so
fuel equal to the length of the text suffices). -/
def findallA : Nat → List Char → List (List Char)
  | 0, _ => []
  | _ + 1, [] => []
  | fuel + 1, c :: cs =>
    match matchA (c :: cs) with
    | some (m, r) => m :: findallA fuel r
    | none => findallA fuel cs

def findA (s : List Char) : List (List Char) := findallA s.length s

/-! ## The pattern `[0-9,]+\.?[0-9]{0,2}`

Used by the near-"Successful" scan of `ocr_bot_fixed.py` and by the first
decimal scan of `spelling.py`.  Because the final repetition may be empty,
matching is purely greedy with no backtracking. -/

def matchB (s : List Char) : Option (List Char × List Char) :=
  let run := s.takeWhile isDC
  if run.isEmpty then none
  else
    match s.drop run.length with
    | '.' :: r2 =>
      let ds := (r2.takeWhile Char.isDigit).take 2
      some (run ++ '.' :: ds, r2.drop ds.length)
    | rest => some (run, rest)

def findallB : Nat → List Char → List (List Char)
  | 0, _ => []
  | _ + 1, [] => []
  | fuel + 1, c :: cs =>
    match matchB (c :: cs) with
    | some (m, r) => m :: findallB fuel r
    | none => findallB fuel cs

def findB (s : List Char) : List (List Char) := findallB s.length s

/-! ## The pattern `\b[0-9]{1,k}(?:,[0-9]{3})*(?:\.[0-9]{0,2})?\b`

The thousands-grouped pattern of the global reconciliation strategies
(`k = 6` in `ocr_bot_fixed.py`, `k = 9` in `spelling.py`), with Python's
word-boundary semantics (`\w` taken as ASCII alphanumeric or underscore)
and greedy backtracking. -/

def isWordC (c : Char) : Bool := c.isAlphanum || c == '_'

/-- Word boundary between the last matched character and the remainder. -/
def endBnd (lc : Char) (rest : List Char) : Bool :=
  match rest with
  | [] => isWordC lc
  | c :: _ => isWordC lc != isWordC c

/-- Maximal number of consecutive `,ddd` groups at the head. -/
def commaGroups : List Char → Nat
  | ',' :: a :: b :: c :: rest =>
    if a.isDigit && b.isDigit && c.isDigit then commaGroups rest + 1 else 0
  | _ => 0

/-- Try `e` decimal digits after the dot, descending (greedy `[0-9]{0,2}`). -/
def tryE (m r2 : List Char) : Nat → Option (List Char × List Char)
  | 0 => if endBnd '.' r2 then some (m ++ ['.'], r2) else none
  | e + 1 =>
    let ds := r2.take (e + 1)
    if ds.length == e + 1 && ds.all Char.isDigit then
      match ds.getLast? with
      | some lc =>
        if endBnd lc (r2.drop (e + 1)) then some (m ++ '.' :: ds, r2.drop (e + 1))
        else tryE m r2 e
      | none => tryE m r2 e
    else tryE m r2 e

/-- After the integer-and-groups part: the optional decimal part (tried with
the dot present first), then the closing word boundary. -/
def tryAfterGroups (matched rest : List Char) : Option (List Char × List Char) :=
  let fallback :=
    match matched.getLast? with
    | some lc => if endBnd lc rest then some (matched, rest) else none
    | none => none
  match rest with
  | '.' :: r2 =>
    match tryE matched r2 2 with
    | some res => some res
    | none => fallback
  | _ => fallback

/-- Try `c` comma groups, descending (greedy `(?:,[0-9]{3})*`). -/
def tryGroups (s : List Char) (d : Nat) : Nat → Option (List Char × List Char)
  | 0 => tryAfterGroups (s.take d) (s.drop d)
  | c + 1 =>
    match tryAfterGroups (s.take (d + 4 * (c + 1))) (s.drop (d + 4 * (c + 1))) with
    | some res => some res
    | none => tryGroups s d c

/-- Try `d` leading digits, descending (greedy `[0-9]{1,k}`). -/
def tryDigits (s : List Char) : Nat → Option (List Char × List Char)
  | 0 => none
  | d + 1 =>
    match tryGroups s (d + 1) (commaGroups (s.drop (d + 1))) with
    | some res => some res
    | none => tryDigits s d

def matchNum (maxD : Nat) (s : List Char) : Option (List Char × List Char) :=
  let r := (s.takeWhile Char.isDigit).length
  if r == 0 then none else tryDigits s (min maxD r)

/-- Python `re.findall` of the bounded pattern; `prev` is the character before the
current position, for the opening word boundary. -/
def findallNum (maxD : Nat) : Nat → Option Char → List Char → List (List Char)
  | 0, _, _ => []
  | _ + 1, _, [] => []
  | fuel + 1, prev, c :: cs =>
    if (match prev with | none => true | some p => !isWordC p) then
      match matchNum maxD (c :: cs) with
      | some (m, r) => m :: findallNum maxD fuel m.getLast? r
      | none => findallNum maxD fuel (some c) cs
    else findallNum maxD fuel (some c) cs

def findNums (maxD : Nat) (s : List Char) : List (List Char) :=
  findallNum maxD s.length none s

/-! ## Amount extraction, `ocr_bot_fixed.py` (`extract_amount_from_text`)

The ordered fallback chain of the bot: the PalmPay special-case search, the
guarded decimal/standalone line scan ("STRATEGY 1"), the near-"Successful"
scan, the global candidate reconciliation, and the header-line scan.  Values
are in hundredths, so the `[50, 1_000_000]` window is `[5000, 100000000]`. -/

def window6 (v : Nat) : Bool := decide (5000 ≤ v) && decide (v ≤ 100000000)

/-- The exclusion `amount != 2025.0 and amount != 2024.0 and amount != 2026.0`. -/
def notYear3 (v : Nat) : Bool := !(v == 202500) && !(v == 202400) && !(v == 202600)

/-- The PalmPay special case on one line:
`re.search(r'[#\s]*([0-9,]+\.?[0-9]{2})[#\s]*', line)` on the stripped line
(the group of the leftmost overall match is the leftmost match of the inner
pattern), accepted inside the window and away from the year values. -/
def palmPayLine (line : List Char) : Option Nat :=
  match searchA (stripL line) with
  | none => none
  | some m =>
    match parseCents m with
    | none => none
    | some v => if window6 v && notYear3 v then some v else none

def palmPayScan (t : List Char) : Option Nat :=
  (splitLines t).findSome? palmPayLine

/-- The date-false-positive guard of STRATEGY 1: skip a line whose upper case
contains a month token or one of the literal strings 2024/2025/2026. -/
def dateGuardB (u : List Char) : Bool :=
  [ "OCT", "NOV", "DEC", "JAN", "FEB", "MAR", "APR", "MAY", "JUN", "JUL",
    "AUG", "SEP", "2025", "2024", "2026"].any (fun w => containsL w.data u)

/-- STRATEGY 1 on one line: skip a date line entirely; else the first
in-window non-year decimal match, else a standalone digits-and-commas line
(whose value check excludes only 2025). -/
def strat1Line (line : List Char) : Option Nat :=
  if dateGuardB (upperL (stripL line)) then none
  else
    match ((findA (stripL line)).filterMap parseCents).find?
        (fun v => window6 v && notYear3 v) with
    | some v => some v
    | none =>
      if !(stripL line).isEmpty && (stripL line).all isDC then
        match parseCents (stripL line) with
        | some v => if window6 v && !(v == 202500) then some v else none
        | none => none
      else none

def strat1 (t : List Char) : Option Nat :=
  (splitLines t).findSome? strat1Line

/-- Indices `range(max(0, i-2), i)`: the indices of the two preceding lines. -/
def prevIdx : Nat → List Nat
  | 0 => []
  | 1 => [0]
  | n + 2 => [n, n + 1]

/-- STRATEGY 2, inner scan: one preceding line with the loose decimal
pattern, accepting the first in-window value other than 2025. -/
def strat2Inner (ls : List (List Char)) (j : Nat) : Option Nat :=
  ((findB (stripL (ls.getD j []))).filterMap parseCents).find?
    (fun v => window6 v && !(v == 202500))

/-- STRATEGY 2: the two lines before a line containing SUCCESSFUL or
TRANSACTION, scanned with the loose decimal pattern (excluding only 2025). -/
def strat2 (t : List Char) : Option Nat :=
  (List.range (splitLines t).length).findSome? (fun i =>
    if containsL ( "SUCCESSFUL".data) (upperL ((splitLines t).getD i []))
        || containsL ( "TRANSACTION".data) (upperL ((splitLines t).getD i [])) then
      (prevIdx i).findSome? (strat2Inner (splitLines t))
    else none)

/-- The hardcoded false-positive denylist of STRATEGY 3. -/
def denyList (v : Nat) : Bool := !(v == 807930453000) && !(v == 907743000)

def distN (t v : Nat) : Nat := ((v : Int) - (t : Int)).natAbs

/-- First element minimising `g`-preference, as Python `min`/`max` with a key
keep the first optimum: `foldPick g a xs` replaces the accumulator only when
`g y b` holds strictly. -/
def foldPick (g : Nat → Nat → Bool) (a : Nat) (xs : List Nat) : Nat :=
  xs.foldl (fun b y => if g y b then y else b) a

def pickClosest (target a : Nat) (xs : List Nat) : Nat :=
  foldPick (fun y b => decide (distN target y < distN target b)) a xs

def pickMaxFrom (a : Nat) (xs : List Nat) : Nat :=
  foldPick (fun y b => decide (b < y)) a xs

/-- STRATEGY 3: all thousands-grouped tokens in the whole text, filtered by
window, year exclusion and denylist; closest to the expected amount when one
was supplied (`expected_amount` truthy), else the maximum. -/
def strat3 (t : List Char) (e : Nat) : Option Nat :=
  match ((findNums 6 t).filterMap parseCents).filter
      (fun v => window6 v && notYear3 v && denyList v) with
  | [] => none
  | x :: xs => if e != 0 then some (pickClosest (e * 100) x xs) else some (pickMaxFrom x xs)

/-- Does the stripped line entirely match `[0-9,]+\.?[0-9]{0,2}`? -/
def fullB (cs : List Char) : Bool :=
  let run := cs.takeWhile isDC
  !run.isEmpty &&
    (match cs.drop run.length with
     | [] => true
     | '.' :: ds => ds.all Char.isDigit && decide (ds.length ≤ 2)
     | _ => false)

/-- STRATEGY 4 on one line: a money-shaped token filling the stripped line. -/
def strat4Line (line : List Char) : Option Nat :=
  if fullB (stripL line) then
    match parseCents (stripL line) with
    | some v => if window6 v then some v else none
    | none => none
  else none

/-- STRATEGY 4: only the first five lines are considered. -/
def strat4 (t : List Char) : Option Nat :=
  ((splitLines t).take 5).findSome? strat4Line

/-- The function `extract_amount_from_text` of `ocr_bot_fixed.py`. -/
def ocrExtract (t : List Char) (e : Nat) : Option Nat :=
  match palmPayScan t with
  | some v => some v
  | none =>
    match strat1 t with
    | some v => some v
    | none =>
      match strat2 t with
      | some v => some v
      | none =>
        match strat3 t e with
        | some v => some v
        | none => strat4 t

/-! ## Amount extraction, `spelling.py` (`extract_amount_from_text`)

The backend's extractor: a per-line loose decimal scan, then a global
thousands-grouped fallback; its plausibility window is `[50, 10_000_000]`,
i.e. `[5000, 1000000000]` in hundredths, with no year exclusions. -/

def spWindow (v : Nat) : Bool := decide (5000 ≤ v) && decide (v ≤ 1000000000)

/-- The backend's per-line decimal scan (the raw, unstripped line). -/
def spDecLine (line : List Char) : Option Nat :=
  ((findB line).filterMap parseCents).find? spWindow

def spExtract (t : List Char) (e : Nat) : Option Nat :=
  match (splitLines t).findSome? spDecLine with
  | some v => some v
  | none =>
    match ((findNums 9 t).filterMap parseCents).filter spWindow with
    | [] => none
    | x :: xs => if e != 0 then some (pickClosest (e * 100) x xs) else some (pickMaxFrom x xs)

/-! ## The receipt verifier of `ocr_bot_fixed.py` (`verify_all_conditions`) -/

/-- The outcome of `verify_all_conditions`: the function returns at the first
failed condition, so each rejection names exactly one condition (its final
`missing conditions` branch is unreachable).  When the amount condition fails
with no detected amount, the wrong-amount message formats the string
`"Not found"` with the thousands-separator f-string spec, which raises
`ValueError`; the exception escapes the function and is swallowed by the
caller's catch-all as a generic error naming no condition — modelled as
`crashed`.  A `wrongAmount` outcome therefore always carries a detected
amount; its payload stays an `Option` because that is what the source's
`detected_amount` variable holds at the return. -/
inductive VerifyOutcome
  | unreadable
  | wrongAmount (found : Option Nat)
  | crashed
  | receiverNotFound
  | referenceNotFound
  | statusNotFound
  | verified
deriving DecidableEq

/-- The stripped non-empty lines used by the verifier. -/
def linesOf (t : List Char) : List (List Char) :=
  ((splitLines t).map stripL).filter (fun l => !l.isEmpty)

/-- CONDITION 1: `detected_amount and detected_amount == expected_amount`
(exact equality; Python truthiness rejects a zero detection). -/
def ocrAmountCond (d : Option Nat) (e : Nat) : Bool :=
  match d with
  | none => false
  | some v => !(v == 0) && (v == e * 100)

/-- The receiver-name variants: full name, name with spaces removed, and the
first token when the name contains a space. -/
def receiverVariations (rn : List Char) : List (List Char) :=
  [upperL rn, upperL (rn.filter (fun c => !(c == ' '))),
   if rn.contains ' ' then upperL (firstTok rn) else upperL rn]

/-- CONDITION 2: some line contains a variant longer than three characters. -/
def ocrReceiverCond (lines : List (List Char)) (rn : List Char) : Bool :=
  lines.any (fun l => (receiverVariations rn).any
    (fun v => containsL v (upperL l) && decide (3 < v.length)))

/-- CONDITION 3: some line contains the full reference, case-insensitively. -/
def ocrRefCond (lines : List (List Char)) (r : List Char) : Bool :=
  lines.any (fun l => containsL (upperL r) (upperL l))

def successIndicators : List (List Char) :=
  [ "SUCCESS".data, "SUCCESSFUL".data, "COMPLETED".data, "COMPLETE".data,
    "APPROVED".data, "CONFIRMED".data, "TRANSACTION SUCCESS".data]

/-- CONDITION 4: some line contains a completion word, case-insensitively. -/
def ocrStatusCond (lines : List (List Char)) : Bool :=
  lines.any (fun l => successIndicators.any (fun ind => containsL ind (upperL l)))

/-- The function `verify_all_conditions`: empty text is unreadable; otherwise the four
conditions are checked in order with an early return at the first failure.
On an amount failure, `actual_amount = detected_amount if detected_amount
else "Not found"` and the message formats `actual_amount` with `:,` — fine
for a detected float, but a `ValueError` crash (caught upstream as a generic
error) when the detection is falsy. -/
def ocrVerify (t : List Char) (e : Nat) (r rn : List Char) : VerifyOutcome :=
  if t.isEmpty then .unreadable
  else
    if ocrAmountCond (ocrExtract t e) e then
      if ocrReceiverCond (linesOf t) rn then
        if ocrRefCond (linesOf t) r then
          if ocrStatusCond (linesOf t) then .verified else .statusNotFound
        else .referenceNotFound
      else .receiverNotFound
    else
      match ocrExtract t e with
      | some v => if v == 0 then .crashed else .wrongAmount (some v)
      | none => .crashed

/-! ## The receipt verifier of `spelling.py` (`verify_receipt`, check part) -/

inductive SpErr
  | amountMissing
  | amountMismatch
  | receiverMissing
  | referenceMissing
  | statusMissing
deriving DecidableEq

/-- The amount errors: `if not amount_found` then missing, else a mismatch
when `abs(amount_found - expected_amount) > 1`. -/
def spAmountErrs (d : Option Nat) (e : Nat) : List SpErr :=
  match d with
  | none => [.amountMissing]
  | some v =>
    if v == 0 then [.amountMissing]
    else if decide (100 < ((v : Int) - (e : Int) * 100).natAbs) then [.amountMismatch]
    else []

/-- Receiver check: full upper-cased name or its first token, each required
non-empty, as a substring of the upper-cased text. -/
def spReceiverFound (t rn : List Char) : Bool :=
  [upperL rn, if rn.isEmpty then [] else upperL (firstTok rn)].any
    (fun p => !p.isEmpty && containsL p (upperL t))

/-- Python `ref.replace('fintech', '')`: remove every occurrence. -/
def removeFintechF : Nat → List Char → List Char
  | 0, s => s
  | f + 1, s =>
    if startsWithL ( "fintech".data) s then removeFintechF f (s.drop 7)
    else
      match s with
      | [] => []
      | c :: cs => c :: removeFintechF f cs

def removeFintech (s : List Char) : List Char := removeFintechF s.length s

/-- Reference check: the full reference case-insensitively, else the
reference with the `fintech` prefix stripped, verbatim. -/
def spRefFound (t r : List Char) : Bool :=
  if containsL (upperL r) (upperL t) then true
  else containsL (removeFintech r) t

/-- Status check: a lower-case completion word anywhere in the text. -/
def spStatusFound (t : List Char) : Bool :=
  [ "success", "successful", "completed", "approved", "confirmed"].any
    (fun w => containsL w.data (lowerL t))

structure SpCheck where
  amountFound : Option Nat
  errors : List SpErr
  accepted : Bool
deriving DecidableEq

/-- The decision part of `verify_receipt`: all four conditions are evaluated
and every failure is appended to the error list; the detected amount is part
of the result whether or not verification succeeds. -/
def spCheckFn (t : List Char) (e : Nat) (r rn : List Char) : SpCheck :=
  let errs := spAmountErrs (spExtract t e) e
    ++ (if spReceiverFound t rn then [] else [.receiverMissing])
    ++ (if spRefFound t r then [] else [.referenceMissing])
    ++ (if spStatusFound t then [] else [.statusMissing])
  ⟨spExtract t e, errs, errs.isEmpty⟩

/-! ## The payment ledger of `spelling.py`

`pending_payments` and `verified_payments` rows (both keyed by `ref`),
the expiry sweep, `create_payment` and the stateful part of
`verify_receipt`.  Amounts are whole Naira as stored; timestamps are
integers.  The `users` table writes of `verify_receipt` are outside every
claim and are not modelled. -/

structure SpPending where
  ref : List Char
  userId : Nat
  amount : Nat
  createdAt : Int
  expiryAt : Int
deriving DecidableEq

structure SpVerified where
  ref : List Char
  userId : Nat
  amount : Nat
  verifiedAt : Int
deriving DecidableEq

structure SpState where
  pending : List SpPending
  verified : List SpVerified
deriving DecidableEq

/-- The sweep `cleanup_expired_payments`: `DELETE FROM pending_payments WHERE expiry_at < now`. -/
def cleanupSp (s : SpState) (now : Int) : SpState :=
  ⟨s.pending.filter (fun p => !decide (p.expiryAt < now)), s.verified⟩

inductive SpCreateRes
  | invalidAmount
  | conflict (eref : List Char) (eamt : Nat)
  | refCollision
  | ok
deriving DecidableEq

/-- The endpoint `create_payment` (`POST /api/payments/create`): validate the amount,
sweep, reject with HTTP 409 when a pending payment for the requester exists,
else insert (a primary-key collision on the fresh reference would surface as
the caught storage exception of the outer handler). -/
def spCreateOp (s : SpState) (uid amt : Nat) (now window : Int)
    (newRef : List Char) : SpCreateRes × SpState :=
  if amt == 0 || decide (1000000 < amt) then (.invalidAmount, s)
  else
    match (cleanupSp s now).pending.find? (fun p => p.userId == uid) with
    | some p => (.conflict p.ref p.amount, cleanupSp s now)
    | none =>
      if (cleanupSp s now).pending.any (fun p => p.ref == newRef) then
        (.refCollision, cleanupSp s now)
      else
        (.ok, ⟨(cleanupSp s now).pending ++ [⟨newRef, uid, amt, now, now + window⟩],
               (cleanupSp s now).verified⟩)

/-- The result of `verify_receipt`.  The code has no `AlreadyVerifiedError`:
that constructor is the spec's vocabulary (kept here so the claims about it
can be stated) and is never produced by this embedding; a duplicate insert
into `verified_payments` raises `sqlite3.IntegrityError`, caught by the
catch-all handler and returned as an HTTP 500 with the raw exception text,
modelled as `storageError`. -/
inductive SpVerifyRes
  | noPending
  | expired
  | unreadable
  | failed (errors : List SpErr) (detected : Option Nat)
  | storageError
  | alreadyVerifiedError
  | ok (detected : Option Nat)
deriving DecidableEq

/-- The stateful part of `verify_receipt` (`POST /api/payments/verify`):
sweep, fetch the pending row by requester and reference (404 when absent,
410 when expired), extract text (`none` models OCR failure), run the checks,
and on success delete the pending row and insert the verified row with the
pending request's expected amount.  On the storage-error path no commit is
reached, so the state is returned unchanged. -/
def spVerifyOp (s : SpState) (uid : Nat) (r : List Char) (now : Int)
    (txt : Option (List Char)) (rn : List Char) : SpVerifyRes × SpState :=
  match (cleanupSp s now).pending.find? (fun q => q.userId == uid && q.ref == r) with
  | none => (.noPending, cleanupSp s now)
  | some p =>
    if decide (p.expiryAt < now) then
      (.expired, ⟨(cleanupSp s now).pending.filter (fun q => !(q.ref == p.ref)),
                  (cleanupSp s now).verified⟩)
    else
      match txt with
      | none => (.unreadable, cleanupSp s now)
      | some t =>
        if (spCheckFn t p.amount r rn).accepted then
          if (cleanupSp s now).verified.any (fun v => v.ref == r) then
            (.storageError, cleanupSp s now)
          else
            (.ok (spCheckFn t p.amount r rn).amountFound,
             ⟨(cleanupSp s now).pending.filter (fun q => !(q.ref == r)),
              ⟨r, uid, p.amount, now⟩ :: (cleanupSp s now).verified⟩)
        else
          (.failed (spCheckFn t p.amount r rn).errors (spCheckFn t p.amount r rn).amountFound,
           cleanupSp s now)

/-- Number of `verified_payments` rows for a reference. -/
def countVerified (r : List Char) (s : SpState) : Nat :=
  (s.verified.filter (fun v => v.ref == r)).length

/-! ## The payment ledger and join handling of `ocr_bot_fixed.py` -/

structure OcrPending where
  ref : List Char
  userId : Nat
  amount : Nat
  createdAt : Int
  expiryAt : Int
deriving DecidableEq

structure OcrVerified where
  ref : List Char
  userId : Nat
  amount : Nat
  verifiedAt : Int
deriving DecidableEq

inductive JoinStatus
  | pending
  | preApproved
  | approved
  | declined
deriving DecidableEq

structure JoinRow where
  userId : Nat
  status : JoinStatus
deriving DecidableEq

structure OcrState where
  pending : List OcrPending
  verified : List OcrVerified
  joins : List JoinRow
deriving DecidableEq

def cleanupOcr (s : OcrState) (now : Int) : OcrState :=
  { s with pending := s.pending.filter (fun p => !decide (p.expiryAt < now)) }

inductive CreateRes
  | conflict (eref : List Char) (eamt : Nat)
  | refCollision
  | ok
deriving DecidableEq

/-- The `/pay` command: sweep, reject when the requester already has a
pending payment, else insert a fresh row (a primary-key collision on the
generated reference would raise out of the handler). -/
def payOp (s : OcrState) (uid amt : Nat) (now window : Int)
    (newRef : List Char) : CreateRes × OcrState :=
  match (cleanupOcr s now).pending.find? (fun p => p.userId == uid) with
  | some p => (.conflict p.ref p.amount, cleanupOcr s now)
  | none =>
    if (cleanupOcr s now).pending.any (fun p => p.ref == newRef) then
      (.refCollision, cleanupOcr s now)
    else
      (.ok, { cleanupOcr s now with
              pending := (cleanupOcr s now).pending ++ [⟨newRef, uid, amt, now, now + window⟩] })

/-- The `create_payment` inline-button branch of `handle_button_click`:
no expiry sweep and no existing-request check — it inserts unconditionally
(subject only to the reference primary key). -/
def buttonCreateOp (s : OcrState) (uid amt : Nat) (now window : Int)
    (newRef : List Char) : CreateRes × OcrState :=
  if s.pending.any (fun p => p.ref == newRef) then (.refCollision, s)
  else (.ok, { s with pending := s.pending ++ [⟨newRef, uid, amt, now, now + window⟩] })

/-- Upsert via `INSERT OR REPLACE INTO join_requests` keyed by `user_id`. -/
def upsertJoin (js : List JoinRow) (uid : Nat) (st : JoinStatus) : List JoinRow :=
  ⟨uid, st⟩ :: js.filter (fun j => !(j.userId == uid))

/-- Is the stored join status `pre_approved`? -/
def joinPre (s : OcrState) (uid : Nat) : Bool :=
  match s.joins.find? (fun j => j.userId == uid) with
  | some j => j.status == .preApproved
  | none => false

inductive JoinRes
  | approved
  | savedPending
deriving DecidableEq

/-- The handler `handle_join_request`: a requester with any `verified_payments` row, or a
`pre_approved` join status, is approved (the external
`approve_chat_join_request` grant is requested exactly on the `approved`
result); anyone else is recorded as `pending`. -/
def handleJoinOp (s : OcrState) (uid : Nat) : JoinRes × OcrState :=
  if s.verified.any (fun v => v.userId == uid) || joinPre s uid then
    (.approved, { s with joins := upsertJoin s.joins uid .approved })
  else
    (.savedPending, { s with joins := upsertJoin s.joins uid .pending })

inductive ReceiptRes
  | noPending
  | expired
  | ocrFailed
  | rejected (o : VerifyOutcome)
  | processingError
  | storageError
  | ok
deriving DecidableEq

/-- The handler `handle_receipt`: fetch the requester's pending row (no sweep), lazily
expire it, run OCR (`none` models failure) and `verify_all_conditions`; on
success delete the pending row, insert the verified row with the pending
request's expected amount, and pre-approve the requester for joining
(`send_private_access`).  A duplicate verified reference would raise
`sqlite3.IntegrityError` into the catch-all handler, modelled as
`storageError` with no commit; the verifier's `ValueError` crash reaches the
same catch-all, modelled as `processingError`. -/
def handleReceiptOp (s : OcrState) (uid : Nat) (now : Int)
    (txt : Option (List Char)) (rn : List Char) : ReceiptRes × OcrState :=
  match s.pending.find? (fun p => p.userId == uid) with
  | none => (.noPending, s)
  | some p =>
    if decide (p.expiryAt < now) then
      (.expired, { s with pending := s.pending.filter (fun q => !(q.ref == p.ref)) })
    else
      match txt with
      | none => (.ocrFailed, s)
      | some t =>
        match ocrVerify t p.amount p.ref rn with
        | .verified =>
          if s.verified.any (fun v => v.ref == p.ref) then (.storageError, s)
          else
            (.ok, { pending := s.pending.filter (fun q => !(q.ref == p.ref)),
                    verified := ⟨p.ref, uid, p.amount, now⟩ :: s.verified,
                    joins := upsertJoin s.joins uid .preApproved })
        | .crashed => (.processingError, s)
        | o => (.rejected o, s)

/-! ## Spec-side comparison definitions

The spec requires the verifier to report the precise list of every failed
condition.  `ocrFailedConds` evaluates the bot's four conditions
independently (following the spec's words), while `reportedConds` reads the
conditions actually named by a `verify_all_conditions` outcome. -/

inductive VCond
  | amount
  | receiver
  | reference
  | status
deriving DecidableEq

/-- The conditions named by an outcome of `verify_all_conditions`: each
rejection message names exactly one condition, and the `ValueError` crash is
reported upstream as a generic error naming no condition at all. -/
def reportedConds : VerifyOutcome → List VCond
  | .unreadable => []
  | .wrongAmount _ => [.amount]
  | .crashed => []
  | .receiverNotFound => [.receiver]
  | .referenceNotFound => [.reference]
  | .statusNotFound => [.status]
  | .verified => []

/-- Modelled from the spec: the list of all failed conditions, evaluating the
bot's four condition checks independently. -/
def ocrFailedConds (t : List Char) (e : Nat) (r rn : List Char) : List VCond :=
  (if ocrAmountCond (ocrExtract t e) e then [] else [.amount])
  ++ (if ocrReceiverCond (linesOf t) rn then [] else [.receiver])
  ++ (if ocrRefCond (linesOf t) r then [] else [.reference])
  ++ (if ocrStatusCond (linesOf t) then [] else [.status])

/-! ## Concrete scenarios used by the counterexamples and witnesses -/

/-- A receipt with the right amount but wrong receiver, missing reference
and missing status. -/
def c1Text : List Char := "2,000.00\nPaid to SOMEBODY ELSE\nno reference here".data

def c1Ref : List Char := "tmzbrand123456".data

def c1Name : List Char := "JOHN DOE".data

/-- A receipt whose amount differs from the expected 2000 by exactly 1. -/
def c2Text : List Char := "1,999.00\nTO JOHN DOE\ntmzbrand123456\nSuccessful".data

/-- One active pending payment (created at 0, expiring at 1200) for user 7. -/
def c3Row : OcrPending := ⟨ "tmzbrand111111".data, 7, 2000, 0, 1200⟩

def c3State : OcrState := ⟨[c3Row], [], []⟩

def c4Ref : List Char := "fintech123456".data

def c4Name : List Char := "TMZ RECEIVER".data

/-- A receipt satisfying all four backend conditions for `c4Ref`. -/
def c4Text : List Char := "2,000.00\nTMZ RECEIVER\nfintech123456\nsuccessful".data

def c4State : SpState := ⟨[⟨c4Ref, 7, 2000, 0, 1200⟩], []⟩

/-- A state holding one verified payment for user 7 and no join rows. -/
def c5State : OcrState := ⟨[], [⟨ "tmzbrand999999".data, 7, 2000, 5⟩], []⟩

/-- A receipt text consisting solely of the reference's numeric part. -/
def c8Text : List Char := "2,000.00\nTO JOHN DOE\nRemark 123456\nSuccessful".data

def c10Ref : List Char := "fintech777777".data

def c10Name : List Char := "TMZ RECEIVER".data

/-- A receipt whose detected amount (2001) is within tolerance of the
expected 2000 but differs from it. -/
def c10Text : List Char := "2,001.00\nTMZ RECEIVER\nfintech777777\nsuccessful".data

def c10State : SpState := ⟨[⟨c10Ref, 7, 2000, 0, 1200⟩], []⟩

/-! ## Sanity checks on the embedding -/

example : ocrExtract ( "JAN 1,500.00".data) 2000 = some 150000 := by decide
example : ocrExtract ( "2,024".data) 2000 = some 202400 := by decide
example : strat1 ( "2,024".data) = some 202400 := by decide
example : ocrExtract ( "2,000.00\nx".data) 2000 = some 200000 := by decide
example : spExtract ( "5,000,000.00".data) 2000 = some 500000000 := by decide
example :
    ocrVerify ( "1,999.00\nTO JOHN DOE\ntmzbrand123456\nSuccessful".data) 2000
      ( "tmzbrand123456".data) ( "JOHN DOE".data) = .wrongAmount (some 199900) := by decide
example :
    ocrVerify ( "no amount on this receipt".data) 2000
      ( "tmzbrand123456".data) ( "JOHN DOE".data) = .crashed := by decide
example :
    (spCheckFn ( "2,000.00\nTMZ RECEIVER\nfintech123456\nsuccessful".data) 2000
      ( "fintech123456".data) ( "TMZ RECEIVER".data)).accepted = true := by decide
example : removeFintech ( "fintech123456".data) = "123456".data := by decide
example : parseCents ( "2,000.00".data) = some 200000 := by decide
example : parseCents ( "2025".data) = some 202500 := by decide
example : parseCents ( ",".data) = none := by decide
example : searchA ( "1,500.00".data) = some ( "1,500.00".data) := by decide
example : searchA ( "2025".data) = some ( "2025".data) := by decide
example : searchA ( "45".data) = none := by decide
example : findB ( "100.505".data) = [ "100.50".data, "5".data] := by decide
example : findNums 6 ( "1234567".data) = [] := by decide
example : findNums 6 ( "9,077,430".data) = [ "9,077,430".data] := by decide
example : findNums 6 ( "12,3456".data) = [ "12".data, "3456".data] := by decide

/-! ## Helper lemmas on the text utilities -/

lemma containsL_nil_pat (l : List Char) : containsL [] l = true := by
  cases l <;> simp [containsL, startsWithL]

lemma startsWithL_append {p a : List Char} (b : List Char)
    (h : startsWithL p a = true) : startsWithL p (a ++ b) = true := by
  induction p generalizing a with
  | nil => simp [startsWithL]
  | cons x xs ih =>
    cases a with
    | nil => simp [startsWithL] at h
    | cons y ys =>
      simp only [startsWithL, Bool.and_eq_true] at h ⊢
      exact ⟨h.1, ih h.2⟩

lemma containsL_append_r {p a : List Char} (b : List Char)
    (h : containsL p a = true) : containsL p (a ++ b) = true := by
  induction a with
  | nil =>
    simp only [containsL, List.isEmpty_iff] at h
    subst h
    exact containsL_nil_pat b
  | cons x xs ih =>
    simp only [containsL, Bool.or_eq_true, List.cons_append] at h ⊢
    rcases h with h | h
    · exact Or.inl (startsWithL_append b h)
    · exact Or.inr (ih h)

lemma containsL_append_l {p b : List Char} (a : List Char)
    (h : containsL p b = true) : containsL p (a ++ b) = true := by
  induction a with
  | nil => simpa using h
  | cons x xs ih =>
    cases b with
    | nil =>
      simp only [containsL, List.isEmpty_iff] at h
      subst h
      exact containsL_nil_pat _
    | cons y ys =>
      simp only [List.cons_append, containsL, Bool.or_eq_true]
      exact Or.inr ih

lemma splitLines_ne_nil (l : List Char) : splitLines l ≠ [] := by
  cases l with
  | nil => simp [splitLines]
  | cons c cs =>
    simp only [splitLines]
    split
    · simp
    · split <;> simp

lemma splitLines_append (a b : List Char) :
    splitLines (a ++ '\n' :: b) = splitLines a ++ splitLines b := by
  induction a with
  | nil => simp [splitLines]
  | cons c cs ih =>
    simp only [List.cons_append, splitLines, List.append_eq]
    by_cases hc : c = '\n'
    · simp only [if_pos hc, ih, List.cons_append]
    · simp only [if_neg hc, ih]
      cases hcs : splitLines cs with
      | nil => exact absurd hcs (splitLines_ne_nil cs)
      | cons l ls => simp [hcs]

lemma foldPick_mem (g : Nat → Nat → Bool) (xs : List Nat) (a : Nat) :
    foldPick g a xs ∈ a :: xs := by
  induction xs generalizing a with
  | nil => simp [foldPick]
  | cons x xs ih =>
    have h := ih (if g x a then x else a)
    simp only [foldPick, List.foldl_cons] at h ⊢
    rcases List.mem_cons.mp h with h1 | h1
    · rw [h1]
      split
      · exact List.mem_cons_of_mem _ (List.mem_cons_self _ _)
      · exact List.mem_cons_self _ _
    · exact List.mem_cons_of_mem _ (List.mem_cons_of_mem _ h1)

/-! ## Window bounds of the extractors -/

lemma palmPayLine_bound {l : List Char} {v : Nat} (h : palmPayLine l = some v) :
    window6 v = true ∧ notYear3 v = true := by
  unfold palmPayLine at h
  split at h
  · exact absurd h (by simp)
  · split at h
    · exact absurd h (by simp)
    · split at h
      case _ hcond =>
        cases h
        exact Bool.and_eq_true_iff.mp hcond
      case _ => exact absurd h (by simp)

lemma strat1Line_bound {l : List Char} {v : Nat} (h : strat1Line l = some v) :
    window6 v = true ∧ v ≠ 202500 := by
  unfold strat1Line at h
  split at h
  · exact absurd h (by simp)
  · split at h
    case _ w hw =>
      cases h
      have hp := List.find?_some hw
      rw [Bool.and_eq_true] at hp
      refine ⟨hp.1, ?_⟩
      have := hp.2
      simp only [notYear3, Bool.and_eq_true, Bool.not_eq_true', beq_eq_false_iff_ne] at this
      exact this.1.1
    case _ =>
      split at h
      · split at h
        · split at h
          · cases h
            rename_i hcond
            rw [Bool.and_eq_true] at hcond
            refine ⟨hcond.1, ?_⟩
            have := hcond.2
            simpa [Bool.not_eq_true', beq_eq_false_iff_ne] using this
          · exact absurd h (by simp)
        · exact absurd h (by simp)
      · exact absurd h (by simp)

lemma strat1_bound {t : List Char} {v : Nat} (h : strat1 t = some v) :
    window6 v = true ∧ v ≠ 202500 := by
  obtain ⟨l, _, hf⟩ := List.exists_of_findSome?_eq_some h
  exact strat1Line_bound hf

lemma strat1_none_of_dated {t : List Char}
    (h : ∀ l ∈ splitLines t, dateGuardB (upperL (stripL l)) = true) :
    strat1 t = none := by
  unfold strat1
  rw [List.findSome?_eq_none_iff]
  intro l hl
  unfold strat1Line
  rw [if_pos (h l hl)]

lemma strat2_bound {t : List Char} {v : Nat} (h : strat2 t = some v) :
    window6 v = true := by
  unfold strat2 at h
  obtain ⟨i, _, hf⟩ := List.exists_of_findSome?_eq_some h
  split at hf
  · obtain ⟨j, _, hj⟩ := List.exists_of_findSome?_eq_some hf
    have hp := List.find?_some hj
    rw [Bool.and_eq_true] at hp
    exact hp.1
  · exact absurd hf (by simp)

lemma strat3_bound {t : List Char} {e v : Nat} (h : strat3 t e = some v) :
    window6 v = true := by
  unfold strat3 at h
  split at h
  · exact absurd h (by simp)
  case _ x xs hxs =>
    have hv : v ∈ x :: xs := by
      split at h
      · cases h; exact foldPick_mem _ _ _
      · cases h; exact foldPick_mem _ _ _
    rw [← hxs] at hv
    have := (List.mem_filter.mp hv).2
    rw [Bool.and_eq_true] at this
    rw [Bool.and_eq_true] at this
    exact this.1.1

lemma strat4Line_bound {l : List Char} {v : Nat} (h : strat4Line l = some v) :
    window6 v = true := by
  unfold strat4Line at h
  split at h
  · split at h
    · split at h
      · cases h; assumption
      · exact absurd h (by simp)
    · exact absurd h (by simp)
  · exact absurd h (by simp)

lemma strat4_bound {t : List Char} {v : Nat} (h : strat4 t = some v) :
    window6 v = true := by
  obtain ⟨l, _, hf⟩ := List.exists_of_findSome?_eq_some h
  exact strat4Line_bound hf

/-- Every value returned by the bot's extractor lies inside `[50, 1_000_000]`
(in hundredths): each of the five strategies filters by that window. -/
lemma ocrExtract_bound {t : List Char} {e v : Nat} (h : ocrExtract t e = some v) :
    5000 ≤ v ∧ v ≤ 100000000 := by
  have hw : window6 v = true := by
    unfold ocrExtract at h
    split at h
    · cases h
      rename_i hp
      obtain ⟨l, _, hf⟩ := List.exists_of_findSome?_eq_some hp
      exact (palmPayLine_bound hf).1
    · split at h
      · cases h; exact (strat1_bound ‹_›).1
      · split at h
        · cases h; exact strat2_bound ‹_›
        · split at h
          · cases h; exact strat3_bound ‹_›
          · exact strat4_bound h
  simpa [window6] using hw

lemma spDecLine_bound {l : List Char} {v : Nat} (h : spDecLine l = some v) :
    spWindow v = true := List.find?_some h

/-- Every value returned by the backend's extractor lies inside
`[50, 10_000_000]` (in hundredths). -/
lemma spExtract_bound {t : List Char} {e v : Nat} (h : spExtract t e = some v) :
    5000 ≤ v ∧ v ≤ 1000000000 := by
  have hw : spWindow v = true := by
    unfold spExtract at h
    split at h
    · cases h
      rename_i hp
      obtain ⟨l, _, hf⟩ := List.exists_of_findSome?_eq_some hp
      exact spDecLine_bound hf
    · split at h
      · exact absurd h (by simp)
      case _ x xs hxs =>
        have hv : v ∈ x :: xs := by
          split at h
          · cases h; exact foldPick_mem _ _ _
          · cases h; exact foldPick_mem _ _ _
        rw [← hxs] at hv
        exact (List.mem_filter.mp hv).2
  simpa [spWindow] using hw

/-! ## Claim C6 -/

/-- C6 counterexample: the extractor's first scan (the PalmPay special case)
returns `1,500.00` from a line carrying the month token JAN, and the guarded
scan's standalone branch accepts the known year value 2024 from a standalone
`2,024` line — contradicting the claim that the first strategy skips every
date line and never accepts a year value. -/
theorem C6_counterexample :
    ocrExtract ( "JAN 1,500.00".data) 2000 = some 150000 ∧
    dateGuardB (upperL (stripL ( "JAN 1,500.00".data))) = true ∧
    ocrExtract ( "2,024".data) 2000 = some 202400 ∧
    strat1 ( "2,024".data) = some 202400 := by decide

/-- C6 (amended): the guarded decimal scan (STRATEGY 1) skips every line
containing a month token or the literal year strings, and any value it
accepts lies in the `[50, 1_000_000]` window and is never exactly 2025 (its
decimal branch also excludes 2024 and 2026, its standalone branch does not);
the PalmPay pre-scan that runs before it applies no date guard. -/
theorem C6_amended :
    (∀ t : List Char, (∀ l ∈ splitLines t, dateGuardB (upperL (stripL l)) = true) →
      strat1 t = none) ∧
    (∀ (t : List Char) (v : Nat), strat1 t = some v →
      (5000 ≤ v ∧ v ≤ 100000000) ∧ v ≠ 202500) := by
  constructor
  · intro t h
    exact strat1_none_of_dated h
  · intro t v h
    have hb := strat1_bound h
    exact ⟨by simpa [window6] using hb.1, hb.2⟩

/-- C6 witness: on a text whose every line carries a date token, the guarded
scan returns nothing. -/
theorem C6_witness : strat1 ( "OCT 10 11\nNOV 2,000.00".data) = none :=
  C6_amended.1 ( "OCT 10 11\nNOV 2,000.00".data) (by decide)

/-! ## Claim C7 -/

/-- C7 counterexample: the backend's extractor returns `5,000,000.00`, a
value outside the claimed `[50, 1_000_000]` plausibility window. -/
theorem C7_counterexample :
    spExtract ( "5,000,000.00".data) 2000 = some 500000000 ∧
    ¬ (500000000 ≤ 100000000) := by decide

/-- C7 (amended): both extractors are total and return nothing or a value
inside their own plausibility window — `[50, 1_000_000]` for the bot's
extractor but `[50, 10_000_000]` for the backend's (values in hundredths). -/
theorem C7_amended :
    ∀ (t : List Char) (e : Nat),
      (∀ v, ocrExtract t e = some v → 5000 ≤ v ∧ v ≤ 100000000) ∧
      (∀ v, spExtract t e = some v → 5000 ≤ v ∧ v ≤ 1000000000) :=
  fun _ _ => ⟨fun _ h => ocrExtract_bound h, fun _ h => spExtract_bound h⟩

/-- C7 witness: the bot's extractor on a concrete receipt returns an
in-window value. -/
theorem C7_witness : 5000 ≤ 200000 ∧ 200000 ≤ 100000000 :=
  (C7_amended ( "2,000.00\nx".data) 2000).1 200000 (by decide)

/-! ## Claim C8 -/

/-- C8 counterexample: a receipt containing only the numeric part `123456`
of the reference `tmzbrand123456` fails the bot's reference condition — the
bot has no prefix-stripping fallback. -/
theorem C8_counterexample :
    ocrVerify c8Text 2000 ( "tmzbrand123456".data) ( "JOHN DOE".data) = .referenceNotFound ∧
    containsL ( "123456".data) c8Text = true := by decide

/-- C8 (amended): the backend's reference check succeeds exactly when the
full reference appears case-insensitively or the reference with the fixed
prefix `fintech` stripped appears verbatim; the bot's reference condition is
only the case-insensitive full-reference substring search over the lines. -/
theorem C8_amended :
    (∀ t r, spRefFound t r = true ↔
      (containsL (upperL r) (upperL t) = true ∨ containsL (removeFintech r) t = true)) ∧
    (∀ lines r, ocrRefCond lines r = true ↔
      ∃ l, l ∈ lines ∧ containsL (upperL r) (upperL l) = true) := by
  constructor
  · intro t r
    unfold spRefFound
    by_cases h : containsL (upperL r) (upperL t) = true
    · simp [h]
    · simp [h]
  · intro lines r
    simp [ocrRefCond, List.any_eq_true]

/-! ## Claim C9 -/

/-- C9 (confirmed): the success-status checks are plain substring searches,
so a receipt containing the completion word only inside the longer word
UNSUCCESSFUL still passes the success-status condition, in both verifiers. -/
theorem C9_thm :
    ∀ pre post : List Char,
      ocrStatusCond (linesOf (pre ++ '\n' :: ( "UNSUCCESSFUL".data ++ '\n' :: post))) = true ∧
      spStatusFound ((pre ++ "UNSUCCESSFUL".data) ++ post) = true := by
  intro pre post
  constructor
  · have h1 := splitLines_append pre ( "UNSUCCESSFUL".data ++ '\n' :: post)
    have h2 := splitLines_append ( "UNSUCCESSFUL".data) post
    have h3 : splitLines ( "UNSUCCESSFUL".data) = [ "UNSUCCESSFUL".data] := by decide
    have hmem : ( "UNSUCCESSFUL".data) ∈
        splitLines (pre ++ '\n' :: ( "UNSUCCESSFUL".data ++ '\n' :: post)) := by
      rw [h1, h2, h3]
      simp
    have hmem2 : ( "UNSUCCESSFUL".data) ∈
        linesOf (pre ++ '\n' :: ( "UNSUCCESSFUL".data ++ '\n' :: post)) := by
      unfold linesOf
      rw [List.mem_filter]
      exact ⟨List.mem_map.mpr ⟨ "UNSUCCESSFUL".data, hmem, by decide⟩, by decide⟩
    unfold ocrStatusCond
    rw [List.any_eq_true]
    exact ⟨ "UNSUCCESSFUL".data, hmem2, by decide⟩
  · unfold spStatusFound
    rw [List.any_eq_true]
    refine ⟨ "success", by simp, ?_⟩
    have hassoc : lowerL ((pre ++ "UNSUCCESSFUL".data) ++ post) =
        lowerL pre ++ (lowerL ( "UNSUCCESSFUL".data) ++ lowerL post) := by
      simp [lowerL, List.append_assoc]
    rw [hassoc]
    exact containsL_append_l _ (containsL_append_r _ (by decide))

/-! ## Claim C1 -/

lemma spAmountErrs_cases (d : Option Nat) (e : Nat) :
    spAmountErrs d e = [] ∨ spAmountErrs d e = [.amountMissing] ∨
      spAmountErrs d e = [.amountMismatch] := by
  cases d with
  | none => simp [spAmountErrs]
  | some v =>
    simp only [spAmountErrs]
    split
    · simp
    · split <;> simp

/-- C1 counterexample: on a receipt failing the receiver, reference and
status conditions at once, `verify_all_conditions` reports only the receiver
failure, not the precise list of every failed condition. -/
theorem C1_counterexample :
    ocrVerify c1Text 2000 c1Ref c1Name = .receiverNotFound ∧
    ocrFailedConds c1Text 2000 c1Ref c1Name = [.receiver, .reference, .status] ∧
    reportedConds (ocrVerify c1Text 2000 c1Ref c1Name) = [.receiver] ∧
    reportedConds (ocrVerify c1Text 2000 c1Ref c1Name) ≠
      ocrFailedConds c1Text 2000 c1Ref c1Name := by decide

/-- C1 (amended): the backend's `verify_receipt` evaluates all four
conditions, lists exactly the failed ones, and reports the detected amount
in every result; the bot's `verify_all_conditions` instead reports only the
first failed condition in the fixed order amount, receiver, reference,
status whenever an amount was detected at all — and when no amount is
detected it crashes with a `ValueError` while formatting the `Not found`
message, surfaced by the caller's catch-all as a generic error naming no
condition. -/
theorem C1_amended :
    (∀ (t : List Char) (e : Nat) (r rn : List Char) (v : Nat),
      t.isEmpty = false → ocrExtract t e = some v →
      reportedConds (ocrVerify t e r rn) = (ocrFailedConds t e r rn).take 1) ∧
    (∀ (t : List Char) (e : Nat) (r rn : List Char),
      t.isEmpty = false → ocrExtract t e = none →
      ocrVerify t e r rn = .crashed ∧ reportedConds (ocrVerify t e r rn) = []) ∧
    (∀ t e r rn,
      (spCheckFn t e r rn).amountFound = spExtract t e ∧
      ((spCheckFn t e r rn).accepted = true ↔ (spCheckFn t e r rn).errors = []) ∧
      (SpErr.receiverMissing ∈ (spCheckFn t e r rn).errors ↔ spReceiverFound t rn = false) ∧
      (SpErr.referenceMissing ∈ (spCheckFn t e r rn).errors ↔ spRefFound t r = false) ∧
      (SpErr.statusMissing ∈ (spCheckFn t e r rn).errors ↔ spStatusFound t = false) ∧
      ((SpErr.amountMissing ∈ (spCheckFn t e r rn).errors ∨
        SpErr.amountMismatch ∈ (spCheckFn t e r rn).errors) ↔
          spAmountErrs (spExtract t e) e ≠ [])) := by
  refine ⟨?_, ?_, ?_⟩
  · intro t e r rn v ht hx
    have hv5 : 5000 ≤ v := (ocrExtract_bound hx).1
    have hvz : (v == 0) = false := by
      rw [beq_eq_false_iff_ne]
      omega
    unfold ocrVerify ocrFailedConds
    rw [ht, hx]
    cases h1 : ocrAmountCond (some v) e <;>
      cases h2 : ocrReceiverCond (linesOf t) rn <;>
        cases h3 : ocrRefCond (linesOf t) r <;>
          cases h4 : ocrStatusCond (linesOf t) <;>
            simp [reportedConds, hvz]
  · intro t e r rn ht hx
    have hcr : ocrVerify t e r rn = .crashed := by
      unfold ocrVerify
      rw [ht, hx]
      simp [ocrAmountCond]
    exact ⟨hcr, by rw [hcr]; rfl⟩
  · intro t e r rn
    rcases spAmountErrs_cases (spExtract t e) e with hA | hA | hA <;>
      cases h2 : spReceiverFound t rn <;>
        cases h3 : spRefFound t r <;>
          cases h4 : spStatusFound t <;>
            simp [spCheckFn, hA, h2, h3, h4]

/-- C1 witness: the take-one characterisation applied to a concrete receipt
with a detected amount and three failed conditions. -/
theorem C1_amended_witness :
    reportedConds (ocrVerify c1Text 2000 c1Ref c1Name) =
      (ocrFailedConds c1Text 2000 c1Ref c1Name).take 1 :=
  C1_amended.1 c1Text 2000 c1Ref c1Name 200000 (by decide) (by decide)

/-! ## Claim C2 -/

/-- C2 counterexample: a receipt whose detected amount 1999 differs from the
expected 2000 by exactly 1 is rejected by the bot with a wrong-amount
outcome, though the claim requires such an amount to be accepted. -/
theorem C2_counterexample :
    ocrVerify c2Text 2000 ( "tmzbrand123456".data) ( "JOHN DOE".data) =
      .wrongAmount (some 199900) ∧
    ((199900 : Int) - (2000 : Int) * 100).natAbs ≤ 100 := by decide

/-- C2 (amended): only the backend's amount condition is the tolerance test
`found` non-null with `abs(found - expected) <= 1` (an off-by-one amount is
accepted there, e.g. a detection of 2001 against 2000); the bot's amount
condition demands exact equality with the expected amount. -/
theorem C2_amended :
    (∀ t e, spAmountErrs (spExtract t e) e = [] ↔
      ∃ v, spExtract t e = some v ∧ ((v : Int) - (e : Int) * 100).natAbs ≤ 100) ∧
    (∀ (d : Option Nat) (e : Nat), ocrAmountCond d e = true ↔
      ∃ v, d = some v ∧ v ≠ 0 ∧ v = e * 100) ∧
    spAmountErrs (some 200100) 2000 = [] := by
  refine ⟨?_, ?_, by decide⟩
  · intro t e
    constructor
    · intro h
      cases hd : spExtract t e with
      | none => rw [hd] at h; simp [spAmountErrs] at h
      | some v =>
        refine ⟨v, rfl, ?_⟩
        rw [hd] at h
        simp only [spAmountErrs] at h
        split at h
        · simp at h
        · split at h
          · simp at h
          · rename_i hk
            rw [decide_eq_true_eq] at hk
            omega
    · rintro ⟨v, hv, hle⟩
      rw [hv]
      have h5 : 5000 ≤ v := (spExtract_bound hv).1
      simp only [spAmountErrs]
      split
      · rename_i hz
        rw [beq_iff_eq] at hz
        omega
      · split
        · rename_i hgt
          rw [decide_eq_true_eq] at hgt
          omega
        · rfl
  · intro d e
    constructor
    · intro h
      cases d with
      | none => simp [ocrAmountCond] at h
      | some v =>
        simp only [ocrAmountCond, Bool.and_eq_true, Bool.not_eq_true',
          beq_eq_false_iff_ne, beq_iff_eq] at h
        exact ⟨v, rfl, h.1, h.2⟩
    · rintro ⟨v, hd, hz, he⟩
      subst hd
      simp only [ocrAmountCond, Bool.and_eq_true, Bool.not_eq_true',
        beq_eq_false_iff_ne, beq_iff_eq]
      exact ⟨hz, he⟩

/-! ## Claim C3 -/

/-- C3 counterexample: with an active pending payment for user 7 already in
place, the inline-button creation path succeeds instead of failing with a
conflict, leaving two active pending payments for the same requester. -/
theorem C3_counterexample :
    (buttonCreateOp c3State 7 2000 10 1200 ( "tmzbrand222222".data)).1 = .ok ∧
    ((buttonCreateOp c3State 7 2000 10 1200 ( "tmzbrand222222".data)).2.pending.filter
      (fun p => p.userId == 7 && !decide (p.expiryAt < 10))).length = 2 := by decide

/-- C3 (amended): the `/pay` command and the backend's `create_payment`
reject a creation with a conflict whenever the requester holds an unexpired
pending payment, and leave that original row in place; the inline-button
creation path gives no such guarantee. -/
theorem C3_amended :
    (∀ (s : OcrState) (uid amt : Nat) (now window : Int) (newRef : List Char)
        (p : OcrPending), p ∈ s.pending → p.userId = uid → ¬ p.expiryAt < now →
      (∃ er ea, (payOp s uid amt now window newRef).1 = .conflict er ea) ∧
      p ∈ (payOp s uid amt now window newRef).2.pending) ∧
    (∀ (s : SpState) (uid amt : Nat) (now window : Int) (newRef : List Char)
        (p : SpPending), p ∈ s.pending → p.userId = uid → ¬ p.expiryAt < now →
      0 < amt → amt ≤ 1000000 →
      (∃ er ea, (spCreateOp s uid amt now window newRef).1 = .conflict er ea) ∧
      p ∈ (spCreateOp s uid amt now window newRef).2.pending) := by
  constructor
  · intro s uid amt now window newRef p hp hu he
    have hmem : p ∈ (cleanupOcr s now).pending := by
      unfold cleanupOcr
      simp only [List.mem_filter]
      exact ⟨hp, by simp [he]⟩
    have hsome : ((cleanupOcr s now).pending.find? (fun q => q.userId == uid)).isSome :=
      List.find?_isSome.mpr ⟨p, hmem, by simp [hu]⟩
    obtain ⟨q, hq⟩ := Option.isSome_iff_exists.mp hsome
    refine ⟨⟨q.ref, q.amount, by simp [payOp, hq]⟩, ?_⟩
    simpa [payOp, hq] using hmem
  · intro s uid amt now window newRef p hp hu he h1 h2
    have hg : (amt == 0 || decide (1000000 < amt)) = false := by
      simp only [Bool.or_eq_false_iff, beq_eq_false_iff_ne, decide_eq_false_iff_not]
      omega
    have hmem : p ∈ (cleanupSp s now).pending := by
      unfold cleanupSp
      simp only [List.mem_filter]
      exact ⟨hp, by simp [he]⟩
    have hsome : ((cleanupSp s now).pending.find? (fun q => q.userId == uid)).isSome :=
      List.find?_isSome.mpr ⟨p, hmem, by simp [hu]⟩
    obtain ⟨q, hq⟩ := Option.isSome_iff_exists.mp hsome
    refine ⟨⟨q.ref, q.amount, by simp [spCreateOp, hg, hq]⟩, ?_⟩
    simpa [spCreateOp, hg, hq] using hmem

/-- C3 witness: the conflict guarantee applied to a concrete state holding
one active pending payment. -/
theorem C3_amended_witness :
    (∃ er ea, (payOp c3State 7 2000 10 1200 ( "tmzbrand333333".data)).1 = .conflict er ea) ∧
    c3Row ∈ (payOp c3State 7 2000 10 1200 ( "tmzbrand333333".data)).2.pending :=
  C3_amended.1 c3State 7 2000 10 1200 ( "tmzbrand333333".data) c3Row
    (by decide) rfl (by decide)

/-! ## Claim C5 -/

/-- C5 counterexample: with one verified payment on record for user 7, two
successive join requests are both approved — the second attempt is not
refused with any used-token failure, and the external approval grant is
requested again. -/
theorem C5_counterexample :
    (handleJoinOp c5State 7).1 = .approved ∧
    (handleJoinOp (handleJoinOp c5State 7).2 7).1 = .approved := by decide

/-- C5 (amended): there is no single-use token — `handle_join_request`
approves every join request by a user holding any verified payment (or a
pre-approved status), requesting the external grant each time; a user with
neither is only recorded as pending. -/
theorem C5_amended (s : OcrState) (uid : Nat) :
    (s.verified.any (fun v => v.userId == uid) = true →
      (handleJoinOp s uid).1 = .approved) ∧
    (s.verified.any (fun v => v.userId == uid) = false → joinPre s uid = false →
      (handleJoinOp s uid).1 = .savedPending) := by
  constructor
  · intro h
    simp [handleJoinOp, h]
  · intro h1 h2
    simp [handleJoinOp, h1, h2]

/-- C5 witness: the approval guarantee applied to the concrete verified
state. -/
theorem C5_amended_witness : (handleJoinOp c5State 7).1 = .approved :=
  (C5_amended c5State 7).1 (by decide)

/-! ## Claims C4 and C10 -/

/-- Inversion of a successful `verify_receipt`: the pending row was found
unexpired, the checks passed, no verified row for the reference existed, and
the new state deletes the pending row and prepends the verified row carrying
the pending request's amount. -/
lemma spVerifyOp_ok_inv {s : SpState} {uid : Nat} {r : List Char} {now : Int}
    {txt : Option (List Char)} {rn : List Char} {d : Option Nat}
    (h : (spVerifyOp s uid r now txt rn).1 = .ok d) :
    ∃ p t, (cleanupSp s now).pending.find? (fun q => q.userId == uid && q.ref == r) = some p ∧
      txt = some t ∧
      (spCheckFn t p.amount r rn).accepted = true ∧
      ((cleanupSp s now).verified.any (fun v => v.ref == r)) = false ∧
      d = (spCheckFn t p.amount r rn).amountFound ∧
      (spVerifyOp s uid r now txt rn).2 =
        ⟨(cleanupSp s now).pending.filter (fun q => !(q.ref == r)),
         ⟨r, uid, p.amount, now⟩ :: (cleanupSp s now).verified⟩ := by
  cases hf : (cleanupSp s now).pending.find? (fun q => q.userId == uid && q.ref == r) with
  | none => simp [spVerifyOp, hf] at h
  | some p =>
    by_cases he : p.expiryAt < now
    · simp [spVerifyOp, hf, he] at h
    · cases txt with
      | none => simp [spVerifyOp, hf, he] at h
      | some t =>
        cases ha : (spCheckFn t p.amount r rn).accepted with
        | false => simp [spVerifyOp, hf, he, ha] at h
        | true =>
          cases hv : (cleanupSp s now).verified.any (fun v => v.ref == r) with
          | true => simp [spVerifyOp, hf, he, ha, hv] at h
          | false =>
            refine ⟨p, t, rfl, rfl, ha, rfl, ?_, ?_⟩
            · simp only [spVerifyOp, hf, he, ha, hv] at h
              simp at h
              exact h.symm
            · simp [spVerifyOp, hf, he, ha, hv]

/-- Reduction of `verify_receipt` when no pending row matches. -/
lemma spVerifyOp_noPending {s : SpState} {uid : Nat} {r : List Char} {now : Int}
    {txt : Option (List Char)} {rn : List Char}
    (hf : (cleanupSp s now).pending.find? (fun q => q.userId == uid && q.ref == r) = none) :
    spVerifyOp s uid r now txt rn = (.noPending, cleanupSp s now) := by
  unfold spVerifyOp
  rw [hf]

/-- C4 counterexample: submitting the same valid receipt twice — the first
submission verifies and leaves exactly one verified row, while the second
fails with the pending-not-found error, not with the claimed
`AlreadyVerifiedError`; one verified row remains. -/
theorem C4_counterexample :
    (spVerifyOp c4State 7 c4Ref 10 (some c4Text) c4Name).1 = .ok (some 200000) ∧
    countVerified c4Ref (spVerifyOp c4State 7 c4Ref 10 (some c4Text) c4Name).2 = 1 ∧
    (spVerifyOp (spVerifyOp c4State 7 c4Ref 10 (some c4Text) c4Name).2
      7 c4Ref 20 (some c4Text) c4Name).1 = .noPending ∧
    (spVerifyOp (spVerifyOp c4State 7 c4Ref 10 (some c4Text) c4Name).2
      7 c4Ref 20 (some c4Text) c4Name).1 ≠ .alreadyVerifiedError ∧
    countVerified c4Ref (spVerifyOp (spVerifyOp c4State 7 c4Ref 10 (some c4Text) c4Name).2
      7 c4Ref 20 (some c4Text) c4Name).2 = 1 := by decide

/-- C4 (amended): a successful verification of reference `r` atomically
deletes the pending row and inserts the verified row, leaving exactly one
VerifiedPayment row for `r`; a second submission for `r` then fails because
no pending payment is found (not with a domain `AlreadyVerifiedError`, which
the code does not have), and still exactly one verified row remains. -/
theorem C4_amended (s : SpState) (uid : Nat) (r : List Char) (now : Int)
    (txt : Option (List Char)) (rn : List Char) (now' : Int)
    (txt' : Option (List Char)) (rn' : List Char) (d : Option Nat)
    (h : (spVerifyOp s uid r now txt rn).1 = .ok d) :
    countVerified r (spVerifyOp s uid r now txt rn).2 = 1 ∧
    (spVerifyOp (spVerifyOp s uid r now txt rn).2 uid r now' txt' rn').1 = .noPending ∧
    countVerified r (spVerifyOp (spVerifyOp s uid r now txt rn).2 uid r now' txt' rn').2 = 1 := by
  obtain ⟨p, t, hf, htxt, ha, hv, hd, hstate⟩ := spVerifyOp_ok_inv h
  have hnone : (cleanupSp s now).verified.filter (fun v => v.ref == r) = [] := by
    rw [List.filter_eq_nil_iff]
    intro a ha'
    have := List.any_eq_false.mp hv a ha'
    simpa using this
  have hcount : countVerified r (spVerifyOp s uid r now txt rn).2 = 1 := by
    rw [hstate]
    unfold countVerified
    simp [List.filter_cons, hnone]
  have hfind2 : (cleanupSp (spVerifyOp s uid r now txt rn).2 now').pending.find?
      (fun q => q.userId == uid && q.ref == r) = none := by
    rw [List.find?_eq_none]
    intro q hq
    rw [hstate] at hq
    unfold cleanupSp at hq
    simp only [List.mem_filter] at hq
    have : (q.ref == r) = false := by
      have := hq.1.2
      simpa using this
    simp [this]
  have h2 : spVerifyOp (spVerifyOp s uid r now txt rn).2 uid r now' txt' rn' =
      (.noPending, cleanupSp (spVerifyOp s uid r now txt rn).2 now') :=
    spVerifyOp_noPending hfind2
  refine ⟨hcount, ?_, ?_⟩
  · rw [h2]
  · rw [h2]
    simpa [countVerified, cleanupSp] using hcount

/-- C4 witness: the guarantee applied to the concrete double-submission
scenario. -/
theorem C4_amended_witness :
    countVerified c4Ref (spVerifyOp c4State 7 c4Ref 10 (some c4Text) c4Name).2 = 1 ∧
    (spVerifyOp (spVerifyOp c4State 7 c4Ref 10 (some c4Text) c4Name).2
      7 c4Ref 20 none c4Name).1 = .noPending ∧
    countVerified c4Ref (spVerifyOp (spVerifyOp c4State 7 c4Ref 10 (some c4Text) c4Name).2
      7 c4Ref 20 none c4Name).2 = 1 :=
  C4_amended c4State 7 c4Ref 10 (some c4Text) c4Name 20 none c4Name
    (some 200000) (by decide)

/-- C10 (confirmed): on every successful verification — in the backend and
in the bot — the inserted VerifiedPayment row records the pending request's
expected amount, never the OCR-detected amount. -/
theorem C10_thm :
    (∀ (s : SpState) (uid : Nat) (r : List Char) (now : Int)
        (txt : Option (List Char)) (rn : List Char) (d : Option Nat),
      (spVerifyOp s uid r now txt rn).1 = .ok d →
      ∃ p, (cleanupSp s now).pending.find? (fun q => q.userId == uid && q.ref == r) = some p ∧
        (spVerifyOp s uid r now txt rn).2.verified =
          ⟨r, uid, p.amount, now⟩ :: (cleanupSp s now).verified) ∧
    (∀ (s : OcrState) (uid : Nat) (now : Int) (txt : Option (List Char)) (rn : List Char),
      (handleReceiptOp s uid now txt rn).1 = .ok →
      ∃ p, s.pending.find? (fun q => q.userId == uid) = some p ∧
        (handleReceiptOp s uid now txt rn).2.verified =
          ⟨p.ref, uid, p.amount, now⟩ :: s.verified) := by
  constructor
  · intro s uid r now txt rn d h
    obtain ⟨p, t, hf, _, _, _, _, hstate⟩ := spVerifyOp_ok_inv h
    exact ⟨p, hf, by rw [hstate]⟩
  · intro s uid now txt rn h
    cases hf : s.pending.find? (fun p => p.userId == uid) with
    | none => simp [handleReceiptOp, hf] at h
    | some p =>
      by_cases he : p.expiryAt < now
      · simp [handleReceiptOp, hf, he] at h
      · cases txt with
        | none => simp [handleReceiptOp, hf, he] at h
        | some t =>
          cases ho : ocrVerify t p.amount p.ref rn with
          | verified =>
            cases hv : s.verified.any (fun v => v.ref == p.ref) with
            | true => simp [handleReceiptOp, hf, he, ho, hv] at h
            | false => exact ⟨p, rfl, by simp [handleReceiptOp, hf, he, ho, hv]⟩
          | unreadable => simp [handleReceiptOp, hf, he, ho] at h
          | wrongAmount f => simp [handleReceiptOp, hf, he, ho] at h
          | crashed => simp [handleReceiptOp, hf, he, ho] at h
          | receiverNotFound => simp [handleReceiptOp, hf, he, ho] at h
          | referenceNotFound => simp [handleReceiptOp, hf, he, ho] at h
          | statusNotFound => simp [handleReceiptOp, hf, he, ho] at h

/-- C10 witness: a concrete verification whose detected amount 2001 is
within tolerance of the expected 2000 yet the verified row records 2000. -/
theorem C10_witness :
    ∃ p, (cleanupSp c10State 10).pending.find?
        (fun q => q.userId == 7 && q.ref == c10Ref) = some p ∧
      (spVerifyOp c10State 7 c10Ref 10 (some c10Text) c10Name).2.verified =
        ⟨c10Ref, 7, p.amount, 10⟩ :: (cleanupSp c10State 10).verified :=
  C10_thm.1 c10State 7 c10Ref 10 (some c10Text) c10Name (some 200100) (by decide)
